import Mathlib

/-!
Verification development for the AILibraryAssistent repository.

The Python sources embedded here are `services/nlp_pipeline.py`,
`services/recommendation_engine.py`, `services/book_service.py` and
`models/books.py`.  Text is modelled as `List Char` (Python strings are
sequences of Unicode code points, matching Lean `Char`), Python `float`
as `ℚ` (the arithmetic performed by the code is simple enough that the
rational value determines every comparison the code makes), Python `int`
as `ℤ`, and Python dicts as insertion-ordered association lists, which is
exactly the iteration/lookup behaviour the code relies on.  Fallible
code paths (expressions that may raise, such as `match.group(1).strip()`
on a `None` group) are modelled with `Option`.

The regular expressions used by `nlp_pipeline.py` are embedded as an AST
(`Re`) together with a backtracking matcher whose alternative ordering
mirrors the Python `re` engine: alternatives are tried left to right,
greedy quantifiers prefer longer matches, lazy quantifiers shorter ones,
and `re.search` returns the first successful match at the leftmost
possible start position.  In the pattern table of this repository every
quantifier is applied either to a single character class or to a literal,
which the AST reflects.  Case-insensitive matching (`re.IGNORECASE`) and
`str.lower()` are modelled by `charLower`, which covers ASCII together
with the accented letters occurring in this repository's data; `\w` is
modelled likewise (ASCII alphanumerics, underscore and those accented
letters), and `$` as end of input (no input handled here contains a
newline).
-/

namespace LibraryAssistant

set_option maxRecDepth 40000

/-- Lowercasing of a character: ASCII plus the accented letters appearing in
the repository's tables (models `str.lower` / `re.IGNORECASE`). -/
def charLower (c : Char) : Char :=
  if 'A' ≤ c ∧ c ≤ 'Z' then Char.ofNat (c.toNat + 32)
  else
    match c with
    | 'À' => 'à' | 'Á' => 'á' | 'Â' => 'â' | 'Ã' => 'ã'
    | 'Ç' => 'ç' | 'É' => 'é' | 'Ê' => 'ê' | 'Í' => 'í'
    | 'Ó' => 'ó' | 'Ô' => 'ô' | 'Õ' => 'õ' | 'Ú' => 'ú'
    | 'Ü' => 'ü' | _ => c

/-- Python `\w` (word character) for the character repertoire of this
repository: alphanumeric, underscore, or accented Latin letter. -/
def isWordChar (c : Char) : Bool :=
  (charLower c).isAlphanum || c = '_' ||
    (charLower c) ∈ ['á', 'à', 'â', 'ã', 'é', 'ê', 'í', 'ó', 'ô', 'õ', 'ú', 'ü', 'ç']

/-- Python `str.strip` / `\s` whitespace characters. -/
def isPySpace (c : Char) : Bool :=
  c ∈ [' ', '\t', '\n', '\r', '\x0b', '\x0c']

/-- `str.lower` over a character list. -/
def pyLower (s : List Char) : List Char := s.map charLower

/-- `str.strip` (default: strip whitespace from both ends). -/
def pyStrip (s : List Char) : List Char :=
  ((s.dropWhile isPySpace).reverse.dropWhile isPySpace).reverse

/-- `needle in hay` for Python strings (contiguous substring test). -/
def startsWithChars : List Char → List Char → Bool
  | [], _ => true
  | _ :: _, [] => false
  | p :: ps, c :: cs => p == c && startsWithChars ps cs

/-- Python `in` on strings: `hasSub needle hay` iff `needle` occurs
contiguously in `hay`. -/
def hasSub (needle : List Char) : List Char → Bool
  | [] => needle.isEmpty
  | c :: cs => startsWithChars needle (c :: cs) || hasSub needle cs

/-- `int(s)` for a non-empty all-digit string (the only use in the code). -/
def pyInt (s : List Char) : Option Int :=
  if s ≠ [] ∧ s.all Char.isDigit then
    some ((s.foldl (fun a c => a * 10 + (c.toNat - 48)) 0 : Nat) : Int)
  else none

/-- Character classes occurring in the pipeline's regular expressions. -/
inductive CClass where
  | word    -- \w
  | digit   -- \d
  | space   -- \s
  | any     -- . (anything but newline)
  | oneof (cs : List Char)  -- [...] of plain characters
deriving Repr, DecidableEq

/-- Class membership, case-insensitively (all searches use IGNORECASE). -/
def clsEval : CClass → Char → Bool
  | .word, c => isWordChar c
  | .digit, c => c.isDigit
  | .space, c => isPySpace c
  | .any, c => c != '\n'
  | .oneof cs, c => cs.contains (charLower c)

/-- Regular-expression AST covering the patterns of `nlp_pipeline.py`.
Quantifiers in that table are applied only to literals (`opt`) or to a
single character class (`plus`, `plusL`, `rep`). -/
inductive Re where
  | lit (s : List Char)          -- literal, matched case-insensitively
  | cls (c : CClass)             -- one character of a class
  | seq (a b : Re)               -- concatenation
  | alt (a b : Re)               -- alternation, left alternative preferred
  | grp (n : Nat) (r : Re)       -- capturing group number n
  | opt (r : Re)                 -- r? (greedy)
  | plus (c : CClass)            -- c+ (greedy)
  | plusL (c : CClass)           -- c+? (lazy)
  | rep (m n : Nat) (c : CClass) -- c\x7bm,n\x7d (greedy)
  | wb                           -- \b
  | eos                          -- $ (end of input; no newlines here)
deriving Repr, DecidableEq

/-- Number of capturing groups of a pattern (`match.groups()` is truthy
iff this is positive). -/
def countGroups : Re → Nat
  | .lit _ => 0 | .cls _ => 0
  | .seq a b => countGroups a + countGroups b
  | .alt a b => countGroups a + countGroups b
  | .grp _ r => countGroups r + 1
  | .opt r => countGroups r
  | .plus _ => 0 | .plusL _ => 0 | .rep _ _ _ => 0
  | .wb => 0 | .eos => 0

/-- Matcher state: previous character (for `\b`), remaining input, and
captured groups (most recent first). -/
structure MSt where
  prev : Option Char
  rest : List Char
  gs : List (Nat × List Char)
deriving Repr, DecidableEq

/-- `\b`: true iff exactly one side of the position is a word character. -/
def wordBoundary (a b : Option Char) : Bool :=
  (a.elim false isWordChar) != (b.elim false isWordChar)

/-- Consume a literal case-insensitively. -/
def matchLit : List Char → MSt → Option MSt
  | [], st => some st
  | _ :: _, ⟨_, [], _⟩ => none
  | p :: ps, ⟨_, c :: cs, gs⟩ =>
    if charLower c == charLower p then matchLit ps ⟨some c, cs, gs⟩ else none

/-- Length of the maximal run of class characters at the head of `l`. -/
def runLen (cl : CClass) (l : List Char) : Nat :=
  (l.takeWhile (clsEval cl)).length

/-- Consume `k` characters (k ≤ length of rest in all uses). -/
def consumeN (st : MSt) (k : Nat) : MSt :=
  ⟨if k = 0 then st.prev else (st.rest.take k).getLast?, st.rest.drop k, st.gs⟩

/-- All ways a pattern can match a prefix of the remaining input, in the
priority order of the backtracking `re` engine (head = preferred). -/
def matchAll : Re → MSt → List MSt
  | .lit s, st => (matchLit s st).toList
  | .cls c, st =>
    match st.rest with
    | [] => []
    | x :: xs => if clsEval c x then [⟨some x, xs, st.gs⟩] else []
  | .seq a b, st => (matchAll a st).flatMap (matchAll b)
  | .alt a b, st => matchAll a st ++ matchAll b st
  | .grp n r, st =>
    (matchAll r st).map fun st2 =>
      ⟨st2.prev, st2.rest, (n, st.rest.take (st.rest.length - st2.rest.length)) :: st2.gs⟩
  | .opt r, st => matchAll r st ++ [st]
  | .plus c, st =>
    let L := runLen c st.rest
    (List.range L).map fun i => consumeN st (L - i)
  | .plusL c, st =>
    let L := runLen c st.rest
    (List.range L).map fun i => consumeN st (i + 1)
  | .rep m n c, st =>
    let L := min n (runLen c st.rest)
    if m ≤ L then (List.range (L + 1 - m)).map fun i => consumeN st (L - i) else []
  | .wb, st => if wordBoundary st.prev st.rest.head? then [st] else []
  | .eos, st => if st.rest.isEmpty then [st] else []

/-- Result of `re.search`: start offset, matched text, captured groups. -/
structure SRes where
  start : Nat
  matched : List Char
  gs : List (Nat × List Char)
deriving Repr, DecidableEq

/-- `re.search` scanning loop: try each start position left to right. -/
def searchGo (r : Re) (prev : Option Char) (rest : List Char) (pos : Nat) : Option SRes :=
  match matchAll r ⟨prev, rest, []⟩ with
  | st :: _ => some ⟨pos, rest.take (rest.length - st.rest.length), st.gs⟩
  | [] =>
    match rest with
    | [] => none
    | c :: cs => searchGo r (some c) cs (pos + 1)

/-- `re.search(pattern, text, re.IGNORECASE)`. -/
def reSearch (r : Re) (t : List Char) : Option SRes :=
  searchGo r none t 0

/-- `match.group(n)` lookup. -/
def groupOf (m : SRes) (n : Nat) : Option (List Char) :=
  m.gs.lookup n

/-! ### The lexical tables of `NLPPipeline.__init__` -/

/-- Literal pattern piece. -/
def L (s : String) : Re := .lit s.data

/-- Concatenation of pattern pieces. -/
def catR (rs : List Re) : Re := rs.foldr Re.seq (Re.lit [])

/-- Alternation of literals, preferred left to right as in `re`. -/
def alts : List String → Re
  | [] => Re.lit []
  | [s] => L s
  | s :: ss => Re.alt (L s) (alts ss)

/-- `self.intent_patterns` (nlp_pipeline.py lines 16-110): ordered intents,
each with its ordered pattern list. -/
def intentPatterns : List (String × List Re) :=
  [ ("recommend_by_genre",
      [ catR [L "gosto de livros de ", .grp 1 (.plus .word)],
        catR [L "recomend", .cls (.oneof ['a', 'e']), L " livros de ", .grp 1 (.plus .word)],
        catR [L "livros do g", .cls (.oneof ['ê', 'e']), L "nero ", .grp 1 (.plus .word)],
        catR [L "quero ler ", .grp 1 (.plus .word)],
        catR [L "me interessa", .opt (L "m"), L " ", .grp 1 (.plus .word)],
        catR [L "curto ", .grp 1 (.plus .word)],
        catR [L "adoro ", .grp 1 (.plus .word)],
        catR [L "gosto de ", .grp 1 (alts ["ficção científica", "literatura brasileira"])],
        catR [L "quero ler ", .grp 1 (alts ["ficção científica", "literatura brasileira"])],
        catR [L "livros de ", .grp 1 (alts ["ficção científica", "literatura brasileira"])],
        catR [L "recomend", .cls (.oneof ['a', 'e']), L " ",
              .grp 1 (alts ["ficção científica", "literatura brasileira"])],
        catR [L "algo de ", .grp 1 (.plus .word)],
        catR [L "livros ", .grp 1 (.plus .word)],
        catR [L "estou procurando ", .grp 1 (.plus .word)],
        catR [L "queria ", .grp 1 (.plus .word)],
        catR [L "busco ", .grp 1 (.plus .word)],
        catR [L "preciso de ", .grp 1 (.plus .word)] ]),
    ("recommend_by_author",
      [ catR [L "livros do autor ", .grp 1 (.plusL .any), .alt (.cls .space) .eos],
        catR [L "obras de ", .grp 1 (.plusL .any), .alt (.cls .space) .eos],
        catR [L "mostre livros de ", .grp 1 (.plusL .any), .alt (.cls .space) .eos],
        catR [L "autor ", .grp 1 (.plusL .any), .alt (.cls .space) .eos],
        catR [L "escrito por ", .grp 1 (.plusL .any), .alt (.cls .space) .eos],
        catR [.grp 1 (.plusL .any), L " escreveu"],
        catR [L "tem ", .grp 1 (.plusL .any), L " na biblioteca"],
        catR [L "conhece ", .opt (.grp 1 (.plusL .any))],
        catR [L "já leu ", .opt (.grp 1 (.plusL .any))] ]),
    ("recommend_similar",
      [ catR [L "li o livro ", .grp 1 (.plusL .any), L " e gostei"],
        catR [L "gostei do livro ", .grp 1 (.plusL .any)],
        catR [L "similar ao ", .grp 1 (.plusL .any)],
        catR [L "parecido com ", .grp 1 (.plusL .any)],
        catR [L "baseado em ", .grp 1 (.plusL .any)],
        catR [L "como ", .grp 1 (.plusL .any)],
        catR [L "estilo ", .grp 1 (.plusL .any)],
        catR [L "no mesmo tom de ", .grp 1 (.plusL .any)],
        catR [L "que lembre ", .grp 1 (.plusL .any)] ]),
    ("books_by_year",
      [ catR [L "livros de ", .grp 1 (.rep 4 4 .digit)],
        catR [L "publicados em ", .grp 1 (.rep 4 4 .digit)],
        catR [L "do ano ", .grp 1 (.rep 4 4 .digit)],
        catR [L "lan", .cls (.oneof ['ç', 'c']), L "ados em ", .grp 1 (.rep 4 4 .digit)],
        catR [L "dos anos ", .grp 1 (.rep 4 4 .digit)],
        catR [L "da década de ", .grp 1 (.rep 4 4 .digit)],
        catR [L "século ", .grp 1 (.rep 1 2 .digit)] ]),
    ("bestsellers",
      [ catR [L "bestseller", .opt (L "s")],
        L "mais vendidos", L "livros famosos", L "populares", L "sucessos",
        L "consagrados", L "aclamados", L "premiados" ]),
    ("non_bestsellers",
      [ catR [L "n", .cls (.oneof ['ã', 'a']), L "o bestseller", .opt (L "s")],
        L "menos conhecidos", L "livros raros",
        catR [L "indie", .opt (L "s")],
        L "independentes", L "cult", L "underground", L "nicho" ]),
    ("recommend_by_mood",
      [ catR [L "estou ", .opt (.grp 1 (L "me sentindo ")), .opt (L "muito "),
              .grp 2 (alts ["triste", "feliz", "estressado", "ansioso", "deprimido",
                            "animado", "bem", "mal"])],
        catR [L "me sentindo ",
              .grp 1 (alts ["triste", "feliz", "estressado", "ansioso", "deprimido",
                            "animado", "bem", "mal", "para baixo"])],
        catR [L "preciso de algo ", .opt (L "que me "),
              .grp 1 (alts ["anime", "relaxe", "emocione", "inspire", "divirta"])],
        catR [L "quero ",
              .grp 1 (alts ["chorar", "rir", "me emocionar", "relaxar", "me inspirar"])],
        catR [L "algo ",
              .grp 1 (alts ["emocionante", "relaxante", "triste", "divertido",
                            "inspirador", "leve", "pesado"])],
        catR [L "humor ",
              .grp 1 (alts ["triste", "feliz", "estressado", "ansioso", "animado"])],
        catR [L "dia ", .grp 1 (alts ["ruim", "bom", "difícil", "estressante"])],
        catR [L "preciso ", .grp 1 (alts ["relaxar", "me animar", "chorar", "rir"])],
        catR [L "estou ",
              .grp 1 (alts ["nostálgico", "melancólico", "reflexivo", "contemplativo"])],
        catR [L "preciso ", .grp 1 (alts ["refletir", "pensar", "filosofar", "meditar"])],
        catR [L "quero algo ",
              .grp 1 (alts ["profundo", "superficial", "intelectual", "simples"])] ]),
    ("recommend_by_occasion",
      [ catR [L "vou ", .grp 1 (alts ["viajar", "para a praia", "de férias", "trabalhar"])],
        catR [L "para ler ",
              .grp 1 (alts ["na praia", "no avião", "antes de dormir", "no trabalho"])],
        catR [L "algo para ",
              .grp 1 (alts ["relaxar", "passar o tempo", "viagem", "férias"])],
        catR [L "leitura ", .grp 1 (alts ["leve", "rápida", "para viagem", "de férias"])],
        catR [L "para ", .grp 1 (alts ["estudar", "aprender", "crescer", "evoluir"])],
        catR [L "no ", .grp 1 (alts ["metrô", "ônibus", "trem", "transporte"])],
        catR [L "entre ", .grp 1 (alts ["aulas", "reuniões", "compromissos"])] ]) ]

/-- `self.mood_to_genre` (nlp_pipeline.py lines 113-164). -/
def moodToGenre : List (String × String) :=
  [ ("triste", "Romance"), ("deprimido", "Autoajuda"), ("mal", "Romance"),
    ("para baixo", "Autoajuda"), ("desanimado", "Autoajuda"), ("perdido", "Filosofia"),
    ("confuso", "Filosofia"), ("cansado", "Romance"), ("nostálgico", "Romance"),
    ("melancólico", "Romance"),
    ("feliz", "Fantasia"), ("animado", "Thriller"), ("bem", "História"),
    ("motivado", "Biografia"), ("empolgado", "Fantasia"), ("confiante", "Thriller"),
    ("determinado", "Biografia"),
    ("reflexivo", "Filosofia"), ("contemplativo", "Filosofia"),
    ("anime", "Romance"), ("relaxe", "Romance"), ("emocione", "Romance"),
    ("inspire", "Biografia"), ("divirta", "Fantasia"), ("chorar", "Romance"),
    ("rir", "Romance"), ("relaxar", "Romance"), ("refletir", "Filosofia"),
    ("pensar", "Filosofia"), ("filosofar", "Filosofia"), ("meditar", "Filosofia"),
    ("emocionante", "Thriller"), ("relaxante", "Romance"), ("divertido", "Fantasia"),
    ("inspirador", "Biografia"), ("leve", "Romance"), ("pesado", "Filosofia"),
    ("profundo", "Filosofia"), ("superficial", "Romance"), ("intelectual", "Filosofia"),
    ("simples", "Romance") ]

/-- `self.occasion_to_genre` (nlp_pipeline.py lines 167-200). -/
def occasionToGenre : List (String × String) :=
  [ ("viajar", "Romance"), ("praia", "Romance"), ("férias", "Fantasia"),
    ("fim de semana", "Fantasia"), ("feriado", "Fantasia"), ("tempo livre", "Romance"),
    ("relaxar", "Romance"),
    ("trabalhar", "Autoajuda"), ("trabalho", "Autoajuda"), ("estudar", "História"),
    ("aprender", "História"), ("crescer", "Autoajuda"), ("evoluir", "Biografia"),
    ("avião", "Mistério"), ("metrô", "Thriller"), ("ônibus", "Romance"),
    ("trem", "Mistério"), ("transporte", "Romance"),
    ("dormir", "Romance"), ("aulas", "Filosofia"), ("reuniões", "Autoajuda"),
    ("compromissos", "Romance"),
    ("viagem", "Mistério") ]

/-- `self.genre_synonyms` (nlp_pipeline.py lines 203-221). -/
def genreSynonyms : List (String × List String) :=
  [ ("terror", ["horror", "medo", "assombração", "suspense", "assustador", "macabro",
                "sombrio", "gótico"]),
    ("romance", ["amor", "romântico", "paixão", "amoroso", "sentimental", "emocional",
                 "tocante", "dramático"]),
    ("thriller", ["suspense", "ação", "tensão", "mistério", "emocionante", "adrenalina",
                  "investigação"]),
    ("ficção científica", ["sci-fi", "futurista", "espacial", "ficção", "científica",
                           "futurismo", "distopia", "cyberpunk"]),
    ("fantasia", ["magia", "épico", "medieval", "mágico", "fantástico", "aventura",
                  "mitológico", "lendário"]),
    ("autoajuda", ["auto-ajuda", "desenvolvimento", "pessoal", "motivação", "sucesso",
                   "crescimento", "coaching", "liderança"]),
    ("história", ["histórico", "passado", "civilização", "humanidade", "histórica",
                  "época", "guerra", "biografia histórica"]),
    ("filosofia", ["filosófico", "reflexão", "pensamento", "existencial", "reflexivo",
                   "profundo", "intelectual", "contemplativo"]),
    ("biografia", ["biográfico", "vida", "personalidade", "famoso", "autobiografia",
                   "memórias", "trajetória", "história de vida"]),
    ("mistério", ["misterioso", "enigma", "detetive", "investigação", "crime",
                  "policial", "suspense", "noir"]),
    ("literatura brasileira", ["brasileiro", "brasil", "nacional", "literatura",
                               "brasiliense", "tupiniquim", "verde-amarelo"]) ]

/-- `self.famous_authors` (nlp_pipeline.py lines 224-243). -/
def famousAuthors : List (String × List String) :=
  [ ("stephen king", ["king", "stephen", "steve king"]),
    ("dan brown", ["brown", "dan", "daniel brown"]),
    ("j.k. rowling", ["rowling", "jk rowling", "joanne rowling"]),
    ("j.r.r. tolkien", ["tolkien", "jrr tolkien", "john tolkien"]),
    ("agatha christie", ["christie", "agatha"]),
    ("arthur conan doyle", ["doyle", "conan doyle", "arthur doyle"]),
    ("george orwell", ["orwell", "george"]),
    ("isaac asimov", ["asimov", "isaac"]),
    ("frank herbert", ["herbert", "frank"]),
    ("h.g. wells", ["wells", "hg wells", "herbert wells"]),
    ("edgar allan poe", ["poe", "edgar poe", "allan poe"]),
    ("franz kafka", ["kafka", "franz"]),
    ("albert camus", ["camus", "albert"]),
    ("gabriel garcía márquez", ["márquez", "garcia marquez", "gabriel garcia"]),
    ("machado de assis", ["machado", "assis", "machado assis"]),
    ("paulo coelho", ["coelho", "paulo"]),
    ("yuval noah harari", ["harari", "yuval", "noah harari"]) ]

/-! ### `_expand_synonyms` (nlp_pipeline.py lines 336-345)

Each synonym is substituted by `re.sub(r'\b' + re.escape(synonym) + r'\b',
main_genre, text, flags=re.IGNORECASE)`: the scan runs over the original
text left to right, non-overlapping, and replacement text is not rescanned
within the same call. -/

/-- Case-insensitive prefix test. -/
def startsWithCI : List Char → List Char → Bool
  | [], _ => true
  | _ :: _, [] => false
  | p :: ps, c :: cs => charLower p == charLower c && startsWithCI ps cs

/-- Does `\b syn \b` match at the head of `s` (with `prev` the character
just before this position)? Empty patterns do not arise. -/
def matchAt (syn : List Char) (prev : Option Char) (s : List Char) : Bool :=
  !syn.isEmpty && wordBoundary prev s.head? && startsWithCI syn s &&
    wordBoundary ((s.take syn.length).getLast?) ((s.drop syn.length).head?)

/-- The scanning loop of one `re.sub` call.  `skip` counts characters of a
just-matched span that remain to be consumed without rescanning (the
replacement has already been emitted); a fresh match is only attempted at
`skip = 0`, which makes the matches non-overlapping as in `re.sub`. -/
def subGoAux (syn repl : List Char) (skip : Nat) (prev : Option Char) : List Char → List Char
  | [] => []
  | c :: cs =>
    match skip with
    | k + 1 => subGoAux syn repl k (some c) cs
    | 0 =>
      if matchAt syn prev (c :: cs) then
        repl ++ subGoAux syn repl (syn.length - 1) (some c) cs
      else
        c :: subGoAux syn repl 0 (some c) cs

/-- `re.sub(r'\b syn \b', repl, s, flags=re.IGNORECASE)`. -/
def subWB (syn repl s : List Char) : List Char := subGoAux syn repl 0 none s

/-- `_expand_synonyms`: fold the substitutions over the synonym table in
declaration order. -/
def expandSynonyms (s : List Char) : List Char :=
  genreSynonyms.foldl
    (fun acc pr => pr.2.foldl (fun acc2 syn => subWB syn.data pr.1.data acc2) acc) s

/-- Scan for a `\b syn \b` occurrence (same scan as `subGo`). -/
def occGo (syn : List Char) (prev : Option Char) : List Char → Bool
  | [] => false
  | c :: cs => matchAt syn prev (c :: cs) || occGo syn (some c) cs

/-- Does `\b syn \b` occur anywhere in `s`? -/
def hasWBOcc (syn s : List Char) : Bool := occGo syn none s

/-! ### `difflib.SequenceMatcher.ratio` (used by `_find_best_author_match`)

With no junk (the strings here are far below the autojunk threshold),
`find_longest_match` returns the maximal matching block that starts
earliest in `a` and, among those, earliest in `b`; `ratio` is
`2*M/(len(a)+len(b))` where `M` sums the recursively collected blocks. -/

/-- Length of the common prefix of two character lists. -/
def commonPrefixLen : List Char → List Char → Nat
  | a :: as, b :: bs => if a == b then commonPrefixLen as bs + 1 else 0
  | _, _ => 0

/-- Length of the matching block starting at `(i, j)`, clipped to the
windows `[i, ahi)` and `[j, bhi)`. -/
def extLen (a b : List Char) (i j ahi bhi : Nat) : Nat :=
  min (commonPrefixLen (a.drop i) (b.drop j)) (min (ahi - i) (bhi - j))

/-- `find_longest_match(alo, ahi, blo, bhi)`: maximal block, ties broken by
earliest start in `a`, then in `b` (strictly-greater update while scanning
starts in ascending order keeps the first maximal block). -/
def bestBlock (a b : List Char) (alo ahi blo bhi : Nat) : Nat × Nat × Nat :=
  (List.range (ahi - alo)).foldl
    (fun best di =>
      (List.range (bhi - blo)).foldl
        (fun best2 dj =>
          let i := alo + di
          let j := blo + dj
          let k := extLen a b i j ahi bhi
          if best2.2.2 < k then (i, j, k) else best2)
        best)
    (alo, blo, 0)

/-- Total size `M` of the matching blocks (`get_matching_blocks`),
computed with an explicit recursion budget.  A returned block with
`0 < k` satisfies `alo ≤ i` and `i + k ≤ ahi`, so the `a`-window
`ahi - alo` strictly shrinks on both recursive calls; a budget equal to
the initial window is therefore never exhausted, and on an empty window
(`fuel = 0` forces `ahi - alo = 0`) the block size is `0` and both
formulations return `0`. -/
def matchingTotalF (a b : List Char) : Nat → Nat → Nat → Nat → Nat → Nat
  | 0, _, _, _, _ => 0
  | fuel + 1, alo, ahi, blo, bhi =>
    if 0 < (bestBlock a b alo ahi blo bhi).2.2 then
      matchingTotalF a b fuel alo (bestBlock a b alo ahi blo bhi).1 blo
          (bestBlock a b alo ahi blo bhi).2.1 +
        (bestBlock a b alo ahi blo bhi).2.2 +
        matchingTotalF a b fuel
          ((bestBlock a b alo ahi blo bhi).1 + (bestBlock a b alo ahi blo bhi).2.2) ahi
          ((bestBlock a b alo ahi blo bhi).2.1 + (bestBlock a b alo ahi blo bhi).2.2) bhi
    else 0

/-- Total size `M` of the matching blocks over the whole strings. -/
def matchingTotal (a b : List Char) (alo ahi blo bhi : Nat) : Nat :=
  matchingTotalF a b (ahi - alo) alo ahi blo bhi

/-- `SequenceMatcher(None, a, b).ratio()`. -/
def similarityScore (a b : List Char) : ℚ :=
  if a.length + b.length = 0 then 1
  else (2 * (matchingTotal a b 0 a.length 0 b.length) : ℚ) / ((a.length : ℚ) + (b.length : ℚ))

/-! ### `_find_best_author_match` (nlp_pipeline.py lines 310-334) -/

/-- One step of the similarity-fallback loop of `_find_best_author_match`:
`if ratio > best_ratio and ratio > 0.7` with strictly-greater updates
(first canonical name wins ties). -/
def simStep (al : String) (acc : ℚ × Option String) (author : String) : ℚ × Option String :=
  let r := similarityScore al.data author.data
  if acc.1 < r ∧ (7 : ℚ)/10 < r then (r, some author) else acc

/-- The similarity-fallback loop over all canonical author names. -/
def authorSimilarityPick (al : String) : Option String :=
  ((famousAuthors.map Prod.fst).foldl (simStep al) ((0 : ℚ), (none : Option String))).2

/-- `_find_best_author_match`: exact key, then alias, then similarity
fallback with threshold 0.7. -/
def findBestAuthorMatch (authorInput : String) : Option String :=
  let al := String.mk (pyStrip (pyLower authorInput.data))
  if (famousAuthors.lookup al).isSome then some al
  else
    match famousAuthors.find? (fun pr => pr.2.contains al) with
    | some pr => some pr.1
    | none => authorSimilarityPick al

/-! ### `_calculate_confidence` (nlp_pipeline.py lines 347-364) -/

/-- `_calculate_confidence`: base `min(0.95, (matchLen/textLen)*2)`, `+0.1`
when the match starts in the first 30% of the text, capped at 0.95; the
bare `except` (division by zero on empty text) and the no-match
fall-through both yield 0.3. -/
def calcConfidence (t : List Char) (p : Re) : ℚ :=
  match reSearch p t with
  | none => 3/10
  | some m =>
    if t.length = 0 then 3/10
    else
      let base := min ((95 : ℚ)/100) ((m.matched.length : ℚ) / (t.length : ℚ) * 2)
      let base2 := if (m.start : ℚ) < (t.length : ℚ) * (3/10) then base + 1/10 else base
      min base2 ((95 : ℚ)/100)

/-! ### `process` (nlp_pipeline.py lines 251-297) -/

/-- Entity values: the `entities` dict holds strings, except `year` which
the code stores as a Python `int`. -/
inductive EVal where
  | s (v : String)
  | i (v : Int)
deriving Repr, DecidableEq

/-- The `Intent` dataclass. -/
structure Intent where
  name : String
  confidence : ℚ
  entities : List (String × EVal)
deriving Repr, DecidableEq

/-- First matching pattern of one intent's list, in declaration order. -/
def firstPat : List Re → List Char → Option (Re × SRes)
  | [], _ => none
  | p :: ps, t =>
    match reSearch p t with
    | some m => some (p, m)
    | none => firstPat ps t

/-- The matcher loop of `process`: first intent (in declaration order)
with a matching pattern wins. -/
def findIntentMatch : List (String × List Re) → List Char → Option (String × Re × SRes)
  | [], _ => none
  | (n, ps) :: rest, t =>
    match firstPat ps t with
    | some (p, m) => some (n, p, m)
    | none => findIntentMatch rest t

/-- Entity extraction for the winning intent (the body of the
`if match.groups():` block).  `none` models an uncaught exception
(`match.group(1)` being `None` where the code calls `.strip()` on it). -/
def mkEntities (name : String) (p : Re) (m : SRes) (t : List Char) :
    Option (List (String × EVal)) :=
  if countGroups p ≠ 0 then
    if name = "recommend_by_genre" ∨ name = "recommend_similar" then
      (groupOf m 1).map fun g => [("target", EVal.s (String.mk (pyStrip g)))]
    else if name = "recommend_by_author" then
      (groupOf m 1).map fun g =>
        let a := String.mk (pyStrip g)
        [("author", EVal.s ((findBestAuthorMatch a).getD a))]
    else if name = "books_by_year" then
      (groupOf m 1).bind fun g =>
        (pyInt g).map fun y =>
          if hasSub "século".data t then [("year", EVal.i ((y - 1) * 100 + 50))]
          else [("year", EVal.i y)]
    else if name = "recommend_by_mood" then
      let mw : List Char :=
        match groupOf m 1 with
        | some g => if g ≠ [] then pyStrip g else pyStrip m.matched
        | none => pyStrip m.matched
      let mws := String.mk mw
      some [("mood", EVal.s mws),
            ("target", EVal.s ((moodToGenre.lookup mws).getD "Romance"))]
    else if name = "recommend_by_occasion" then
      let ow : List Char :=
        match groupOf m 1 with
        | some g => if g ≠ [] then pyStrip g else pyStrip m.matched
        | none => pyStrip m.matched
      let ows := String.mk ow
      some [("occasion", EVal.s ows),
            ("target", EVal.s ((occasionToGenre.lookup ows).getD "Romance"))]
    else some []
  else some []

/-- The preprocessing of `process`: `text.lower().strip()` followed by
synonym expansion. -/
def preproc (input : String) : List Char :=
  expandSynonyms (pyStrip (pyLower input.data))

/-- `NLPPipeline.process`.  Returns `none` when the Python code would
raise inside entity extraction; otherwise `some` of the produced
`Intent` (the `unknown` sentinel when no pattern matches). -/
def process (input : String) : Option Intent :=
  match findIntentMatch intentPatterns (preproc input) with
  | none => some ⟨"unknown", 0, []⟩
  | some (name, pr, m) =>
    (mkEntities name pr m (preproc input)).map
      fun es => ⟨name, calcConfidence (preproc input) pr, es⟩

/-! ### `models/books.py`, `services/book_service.py` -/

/-- The `Book` pydantic model. -/
structure Book where
  id : Int
  title : String
  author : String
  genre : String
  year : Int
  bestseller : Bool
  description : String
  rating : ℚ
deriving Repr, DecidableEq

/-- `BookService.get_books_by_genre`: case-insensitive exact genre match.
A `BookService`'s only state is its book list, passed explicitly. -/
def getBooksByGenre (books : List Book) (genre : String) : List Book :=
  books.filter fun b => pyLower b.genre.data == pyLower genre.data

/-- `BookService.get_books_by_author`: case-insensitive substring match. -/
def getBooksByAuthor (books : List Book) (author : String) : List Book :=
  books.filter fun b => hasSub (pyLower author.data) (pyLower b.author.data)

/-- `BookService.get_books_by_year`. -/
def getBooksByYear (books : List Book) (year : Int) : List Book :=
  books.filter fun b => b.year == year

/-- `BookService.get_bestsellers`. -/
def getBestsellers (books : List Book) (isBestseller : Bool) : List Book :=
  books.filter fun b => b.bestseller == isBestseller

/-- `BookService.find_book_by_title`: first book (in catalog order) whose
lower-cased title contains the lower-cased fragment. -/
def findBookByTitle (books : List Book) (title : String) : Option Book :=
  books.find? fun b => hasSub (pyLower title.data) (pyLower b.title.data)

/-! ### `services/recommendation_engine.py` -/

/-- The sort key relation of `sorted(books, key=lambda x: x.rating,
reverse=True)`: rating descending. -/
def ratingGe (a b : Book) : Prop := b.rating ≤ a.rating

instance : DecidableRel ratingGe := fun a b => inferInstanceAs (Decidable (b.rating ≤ a.rating))

instance : IsTotal Book ratingGe := ⟨fun a b => le_total b.rating a.rating⟩

instance : IsTrans Book ratingGe := ⟨fun _ _ _ h1 h2 => le_trans h2 h1⟩

/-- Python `sorted(..., key=lambda x: x.rating, reverse=True)`: the stable
sort by rating descending (any stable sort computes the same list;
insertion sort is stable). -/
def sortByRating (l : List Book) : List Book := List.insertionSort ratingGe l

/-- Python list slicing `l[:n]`, including the negative-`n` case. -/
def pySlice (n : Int) (l : List α) : List α :=
  if 0 ≤ n then l.take n.toNat else l.take (l.length - n.natAbs)

/-- `RecommendationEngine.recommend_by_genre`. -/
def recommendByGenre (books : List Book) (genre : String) (limit : Int) : List Book :=
  pySlice limit (sortByRating (getBooksByGenre books genre))

/-- `RecommendationEngine.recommend_by_author`. -/
def recommendByAuthor (books : List Book) (author : String) (limit : Int) : List Book :=
  pySlice limit (sortByRating (getBooksByAuthor books author))

/-- The body of `recommend_similar_books` once the reference book has been
resolved: same-genre books minus the reference, same-author books
concatenated first, then the whole list sorted by rating and truncated. -/
def recommendSimilarFrom (books : List Book) (target : Book) (limit : Int) : List Book :=
  let similar := (getBooksByGenre books target.genre).filter fun b => b.id ≠ target.id
  let sameAuthor := similar.filter fun b => b.author = target.author
  let otherBooks := similar.filter fun b => b.author ≠ target.author
  pySlice limit (sortByRating (sameAuthor ++ otherBooks))

/-- `RecommendationEngine.recommend_similar_books`. -/
def recommendSimilarBooks (books : List Book) (bookTitle : String) (limit : Int) : List Book :=
  match findBookByTitle books bookTitle with
  | none => []
  | some target => recommendSimilarFrom books target limit

/-- `RecommendationEngine.recommend_by_year`. -/
def recommendByYear (books : List Book) (year : Int) (limit : Int) : List Book :=
  pySlice limit (sortByRating (getBooksByYear books year))

/-- `RecommendationEngine.recommend_bestsellers`. -/
def recommendBestsellers (books : List Book) (isBestseller : Bool) (limit : Int) : List Book :=
  pySlice limit (sortByRating (getBestsellers books isBestseller))

/-- The mood→genre map local to `recommend_by_mood` (recommendation_engine.py
lines 128-137; distinct from the pipeline's `mood_to_genre`). -/
def moodToGenreLocal : List (String × String) :=
  [ ("triste", "Romance"), ("deprimido", "Romance"), ("estressado", "Romance"),
    ("ansioso", "Romance"), ("feliz", "Thriller"), ("animado", "Thriller"),
    ("relaxar", "Romance"), ("inspirar", "Ficção Científica") ]

/-- `negative_moods` (recommendation_engine.py line 144). -/
def negativeMoods : List String :=
  ["triste", "deprimido", "estressado", "ansioso", "mal"]

/-- `RecommendationEngine.recommend_by_mood`.  `targetGenre = none` or
`some ""` are both falsy in `if not target_genre:`. -/
def recommendByMood (books : List Book) (mood : String) (targetGenre : Option String)
    (limit : Int) : List Book :=
  let moodLower := String.mk (pyLower mood.data)
  let tg :=
    match targetGenre with
    | none => (moodToGenreLocal.lookup moodLower).getD "Romance"
    | some g => if g = "" then (moodToGenreLocal.lookup moodLower).getD "Romance" else g
  let bs := getBooksByGenre books tg
  let bs := if negativeMoods.contains moodLower then
      bs.filter (fun b => (4 : ℚ) ≤ b.rating)
    else bs
  pySlice limit (sortByRating bs)

/-- `relaxing_occasions` (recommendation_engine.py line 169). -/
def relaxingOccasions : List String := ["praia", "férias", "viagem", "relaxar"]

/-- `RecommendationEngine.recommend_by_occasion`. -/
def recommendByOccasion (books : List Book) (occasion : String) (targetGenre : Option String)
    (limit : Int) : List Book :=
  let tg :=
    match targetGenre with
    | none => "Romance"
    | some g => if g = "" then "Romance" else g
  let bs := getBooksByGenre books tg
  let bs := if relaxingOccasions.contains (String.mk (pyLower occasion.data)) then
      bs.filter (fun b => (7 : ℚ)/2 ≤ b.rating)
    else bs
  pySlice limit (sortByRating bs)

/-! ### A small concrete catalog used for witnesses and counterexamples -/

/-- Reference book of the worked example: genre Terror, author "Author A". -/
def demoRef : Book :=
  ⟨1, "Ref Book", "Author A", "Terror", 2000, false, "ref", 4⟩

/-- Same-genre, same-author candidate with rating 3.0. -/
def demoSame : Book :=
  ⟨2, "Same Author Book", "Author A", "Terror", 2001, false, "same", 3⟩

/-- Same-genre, different-author candidate with rating 4.9. -/
def demoOther : Book :=
  ⟨3, "Other Author Book", "Author B", "Terror", 2002, true, "other", 49/10⟩

/-- The example catalog. -/
def demoBooks : List Book := [demoRef, demoSame, demoOther]

/-! ### Helper lemmas -/

theorem sorted_pySlice_sortByRating (l : List Book) (n : Int) :
    List.Sorted ratingGe (pySlice n (sortByRating l)) := by
  have hs : List.Sorted ratingGe (sortByRating l) :=
    List.sorted_insertionSort ratingGe l
  unfold pySlice
  split
  · exact List.Pairwise.sublist (List.take_sublist _ _) hs
  · exact List.Pairwise.sublist (List.take_sublist _ _) hs

theorem length_pySlice_le {α : Type} (l : List α) (n : Int) (h : 0 ≤ n) :
    ((pySlice n l).length : Int) ≤ n := by
  unfold pySlice
  rw [if_pos h]
  have h1 : (l.take n.toNat).length ≤ n.toNat := by
    rw [List.length_take]
    exact min_le_left _ _
  omega

theorem sliceSort_spec (l : List Book) (n : Int) (h : 0 ≤ n) :
    List.Sorted ratingGe (pySlice n (sortByRating l)) ∧
      ((pySlice n (sortByRating l)).length : Int) ≤ n :=
  ⟨sorted_pySlice_sortByRating l n, length_pySlice_le _ n h⟩

theorem firstPat_none_of_forall {ps : List Re} {t : List Char}
    (h : ∀ p ∈ ps, reSearch p t = none) : firstPat ps t = none := by
  induction ps with
  | nil => rfl
  | cons p ps ih =>
    unfold firstPat
    rw [h p (List.mem_cons_self p ps)]
    exact ih fun q hq => h q (List.mem_cons_of_mem p hq)

theorem forall_none_of_firstPat {ps : List Re} {t : List Char}
    (h : firstPat ps t = none) : ∀ p ∈ ps, reSearch p t = none := by
  induction ps with
  | nil => intro p hp; cases hp
  | cons p ps ih =>
    intro q hq
    unfold firstPat at h
    rcases hsearch : reSearch p t with _ | m
    · rw [hsearch] at h
      rcases List.mem_cons.mp hq with rfl | hq2
      · exact hsearch
      · exact ih h q hq2
    · rw [hsearch] at h
      cases h

theorem firstPat_isSome_of_exists {ps : List Re} {t : List Char}
    (h : ∃ p ∈ ps, (reSearch p t).isSome) : (firstPat ps t).isSome := by
  rcases hfp : firstPat ps t with _ | pm
  · rcases h with ⟨p, hp, hsome⟩
    rw [forall_none_of_firstPat hfp p hp] at hsome
    cases hsome
  · rfl

theorem findIntentMatch_none_of_forall {table : List (String × List Re)} {t : List Char}
    (h : ∀ pr ∈ table, ∀ p ∈ pr.2, reSearch p t = none) :
    findIntentMatch table t = none := by
  induction table with
  | nil => rfl
  | cons hd tl ih =>
    unfold findIntentMatch
    rw [firstPat_none_of_forall (h hd (List.mem_cons_self hd tl))]
    exact ih fun pr hpr p hp => h pr (List.mem_cons_of_mem hd hpr) p hp

theorem findIntentMatch_earlier (table : List (String × List Re)) (t : List Char) :
    ∀ i (hi : i < table.length),
      (∃ p ∈ (table.get ⟨i, hi⟩).2, (reSearch p t).isSome) →
      ∃ r, findIntentMatch table t = some r ∧
        ∃ k, ∃ hk : k < table.length, k ≤ i ∧ r.1 = (table.get ⟨k, hk⟩).1 := by
  induction table with
  | nil => intro i hi; cases hi
  | cons hd tl ih =>
    intro i hi hex
    rcases hfp : firstPat hd.2 t with _ | pm
    · cases i with
      | zero =>
        rcases hex with ⟨p, hp, hsome⟩
        rw [forall_none_of_firstPat hfp p hp] at hsome
        cases hsome
      | succ i' =>
        have hi' : i' < tl.length := by
          simpa using Nat.lt_of_succ_lt_succ hi
        rcases ih i' hi' hex with ⟨r, hfind, k, hk, hki, hname⟩
        refine ⟨r, ?_, k + 1, Nat.succ_lt_succ hk, Nat.succ_le_succ hki, hname⟩
        unfold findIntentMatch
        rw [hfp]
        exact hfind
    · refine ⟨(hd.1, pm.1, pm.2), ?_, 0, Nat.succ_pos _, Nat.zero_le _, rfl⟩
      unfold findIntentMatch
      rw [hfp]

theorem hasSub_nil (hay : List Char) : hasSub [] hay = true := by
  cases hay <;> simp [hasSub, startsWithChars]

theorem lookup_mem {α β : Type} [BEq α] [LawfulBEq α] {l : List (α × β)} {a : α} {b : β}
    (h : List.lookup a l = some b) : a ∈ l.map Prod.fst := by
  induction l with
  | nil => cases h
  | cons hd tl ih =>
    obtain ⟨k, v⟩ := hd
    unfold List.lookup at h
    split at h
    · next heq =>
      simp only [List.map_cons, List.mem_cons]
      exact Or.inl (eq_of_beq heq)
    · exact List.mem_cons_of_mem _ (ih h)

theorem findIntentMatch_name_mem {table : List (String × List Re)} {t : List Char}
    {r : String × Re × SRes} (h : findIntentMatch table t = some r) :
    r.1 ∈ table.map Prod.fst := by
  induction table with
  | nil => cases h
  | cons hd tl ih =>
    obtain ⟨n, ps⟩ := hd
    unfold findIntentMatch at h
    rcases hfp : firstPat ps t with _ | pm
    · rw [hfp] at h
      exact List.mem_cons_of_mem _ (ih h)
    · rw [hfp] at h
      obtain rfl := Option.some.inj h
      exact List.mem_cons_self _ _

theorem process_some_cases {s : String} {it : Intent} (h : process s = some it) :
    (findIntentMatch intentPatterns (preproc s) = none ∧ it = ⟨"unknown", 0, []⟩) ∨
    (∃ r es, findIntentMatch intentPatterns (preproc s) = some r ∧
      mkEntities r.1 r.2.1 r.2.2 (preproc s) = some es ∧
      it = ⟨r.1, calcConfidence (preproc s) r.2.1, es⟩) := by
  unfold process at h
  rcases hf : findIntentMatch intentPatterns (preproc s) with _ | r
  · rw [hf] at h
    exact Or.inl ⟨rfl, (Option.some.inj h).symm⟩
  · rw [hf] at h
    obtain ⟨n, p, m⟩ := r
    dsimp only at h
    rcases hme : mkEntities n p m (preproc s) with _ | es
    · rw [hme] at h
      cases h
    · rw [hme] at h
      exact Or.inr ⟨(n, p, m), es, rfl, hme, (Option.some.inj h).symm⟩

theorem calcConfidence_bounds (t : List Char) (p : Re) :
    0 ≤ calcConfidence t p ∧ calcConfidence t p ≤ 95/100 := by
  unfold calcConfidence
  rcases reSearch p t with _ | m
  · constructor <;> norm_num
  · dsimp only
    split
    · constructor <;> norm_num
    · have hbase0 : (0 : ℚ) ≤ min ((95 : ℚ)/100) ((m.matched.length : ℚ) / (t.length : ℚ) * 2) := by
        apply le_min
        · norm_num
        · exact mul_nonneg (div_nonneg (Nat.cast_nonneg _) (Nat.cast_nonneg _)) (by norm_num)
      constructor
      · refine le_min ?_ (by norm_num)
        split
        · linarith
        · exact hbase0
      · exact min_le_right _ _

theorem calcConfidence_no_match {t : List Char} {p : Re} (h : reSearch p t = none) :
    calcConfidence t p = 3/10 := by
  unfold calcConfidence
  rw [h]

theorem subGoAux_id {syn repl : List Char} :
    ∀ {s : List Char} {prev : Option Char}, occGo syn prev s = false →
      subGoAux syn repl 0 prev s = s := by
  intro s
  induction s with
  | nil => intro prev _; rfl
  | cons c cs ih =>
    intro prev h
    unfold occGo at h
    rw [Bool.or_eq_false_iff] at h
    unfold subGoAux
    rw [if_neg (by rw [h.1]; exact Bool.false_ne_true)]
    rw [ih h.2]

theorem innerFold_id (g : String) (syns : List String) :
    ∀ (s : List Char), (∀ syn ∈ syns, hasWBOcc syn.data s = false) →
      syns.foldl (fun acc2 syn => subWB syn.data g.data acc2) s = s := by
  induction syns with
  | nil => intro s _; rfl
  | cons syn rest ih =>
    intro s h
    have h1 : subWB syn.data g.data s = s :=
      subGoAux_id (h syn (List.mem_cons_self syn rest))
    rw [List.foldl_cons, h1]
    exact ih s fun q hq => h q (List.mem_cons_of_mem syn hq)

theorem expandSynonyms_id {s : List Char}
    (h : ∀ pr ∈ genreSynonyms, ∀ syn ∈ pr.2, hasWBOcc syn.data s = false) :
    expandSynonyms s = s := by
  unfold expandSynonyms
  generalize hg : genreSynonyms = tbl at h
  clear hg
  induction tbl with
  | nil => rfl
  | cons hd tl ih =>
    rw [List.foldl_cons, innerFold_id hd.1 hd.2 s (h hd (List.mem_cons_self hd tl))]
    exact ih fun pr hpr syn hsyn => h pr (List.mem_cons_of_mem hd hpr) syn hsyn

theorem simFold_mem {al : String} :
    ∀ (l : List String) (acc : ℚ × Option String) {x : String},
      (∀ y, acc.2 = some y → y ∈ famousAuthors.map Prod.fst) →
      (∀ a ∈ l, a ∈ famousAuthors.map Prod.fst) →
      (l.foldl (simStep al) acc).2 = some x → x ∈ famousAuthors.map Prod.fst := by
  intro l
  induction l with
  | nil => intro acc x hacc _ hx; exact hacc x hx
  | cons a rest ih =>
    intro acc x hacc hl hx
    rw [List.foldl_cons] at hx
    refine ih (simStep al acc a) ?_ (fun q hq => hl q (List.mem_cons_of_mem a hq)) hx
    intro y hy
    unfold simStep at hy
    dsimp only at hy
    split at hy
    · exact (Option.some.inj hy) ▸ hl a (List.mem_cons_self a rest)
    · exact hacc y hy

theorem authorSimilarityPick_mem {al x : String} (h : authorSimilarityPick al = some x) :
    x ∈ famousAuthors.map Prod.fst := by
  unfold authorSimilarityPick at h
  exact simFold_mem (famousAuthors.map Prod.fst) ((0 : ℚ), none)
    (fun y hy => by cases hy) (fun a ha => ha) h

theorem fbam_mem {s r : String} (h : findBestAuthorMatch s = some r) :
    r ∈ famousAuthors.map Prod.fst := by
  unfold findBestAuthorMatch at h
  dsimp only at h
  split at h
  · next hl =>
    obtain rfl := Option.some.inj h
    rcases Option.isSome_iff_exists.mp hl with ⟨v, hv⟩
    exact lookup_mem hv
  · split at h
    · next pr hfind =>
      obtain rfl := Option.some.inj h
      exact List.mem_map_of_mem Prod.fst (List.mem_of_find?_eq_some hfind)
    · exact authorSimilarityPick_mem h

/-! ### The claims -/

/-- Claim C1, counterexample.  On a catalog whose reference book has
exactly two same-genre candidates — same-author with rating 3.0 and
different-author with rating 4.9 — `recommend_similar_books` does NOT
return `[same-author(3.0), different-author(4.9)]` as the claim states:
the code sorts the whole concatenation by rating descending, which puts
the higher-rated different-author book first. -/
theorem c1_similar_counterexample :
    recommendSimilarBooks demoBooks "ref book" 5 ≠ [demoSame, demoOther] := by
  with_unfolding_all decide

/-- Claim C1, amended.  `recommend_similar_books` returns the same-genre
books (reference excluded) sorted by rating descending overall; the
same-author-first concatenation only decides ties (stable sort), so in the
worked example the result is `[different-author(4.9), same-author(3.0)]`.
The general conjunct: every result of `recommend_similar_books` is sorted
by rating descending. -/
theorem c1_similar_amended :
    recommendSimilarBooks demoBooks "ref book" 5 = [demoOther, demoSame] ∧
    ∀ (books : List Book) (title : String) (limit : Int),
      List.Sorted ratingGe (recommendSimilarBooks books title limit) := by
  constructor
  · with_unfolding_all decide
  · intro books title limit
    rcases hfind : findBookByTitle books title with _ | tgt
    · simp only [recommendSimilarBooks, hfind]
      exact List.sorted_nil
    · simp only [recommendSimilarBooks, hfind]
      exact sorted_pySlice_sortByRating _ _

/-- Claim C2 (code bug).  For the utterance `"livros de 2020"` the
pipeline does NOT return `books_by_year` with `year = 2020`: the generic
`recommend_by_genre` pattern `livros (\w+)` is tried first and matches
`"livros de"`, so the code returns `recommend_by_genre` with target
`"de"`, making the dedicated `books_by_year` pattern
`livros de (\d{4})` unreachable. -/
theorem c2_year_utterance_behavior :
    process "livros de 2020" =
      some ⟨"recommend_by_genre", 19/20, [("target", EVal.s "de")]⟩ := by
  with_unfolding_all decide

/-- Claim C3, counterexample.  Synonym expansion is not idempotent: for
`"sci-fi"` the first pass rewrites it to a text containing the words
`ficção` and `científica`, which are themselves synonyms of
`ficção científica`, so a second pass expands further. -/
theorem c3_expand_counterexample :
    expandSynonyms (expandSynonyms "sci-fi".data) ≠ expandSynonyms "sci-fi".data := by
  decide

/-- Claim C3, amended.  Synonym expansion is idempotent only on inputs
whose expansion contains no whole-word occurrence of any synonym; in
general re-applying it changes the text (see the counterexample). -/
theorem c3_expand_amended :
    ∀ t : List Char,
      (∀ pr ∈ genreSynonyms, ∀ syn ∈ pr.2, hasWBOcc syn.data (expandSynonyms t) = false) →
      expandSynonyms (expandSynonyms t) = expandSynonyms t :=
  fun _ h => expandSynonyms_id h

/-- Witness for the amended claim C3 at the concrete input `"xyz"`. -/
theorem c3_expand_amended_witness :
    expandSynonyms (expandSynonyms "xyz".data) = expandSynonyms "xyz".data :=
  c3_expand_amended "xyz".data (by decide)

/-- Claim C4 (code bug).  For the utterance `"estou triste"` the pipeline
returns intent `recommend_by_mood` but with entity `mood = "estou triste"`
(the whole match), not `"triste"`: `match.group(1)` is the optional
`(me sentindo )?` group, which is `None` here, so the code falls back to
`match.group(0)`; the mood word captured in group 2 is never read, and
`target = "Romance"` arises only from the unmapped-mood default. -/
theorem c4_mood_utterance_behavior :
    process "estou triste" =
      some ⟨"recommend_by_mood", 19/20,
        [("mood", EVal.s "estou triste"), ("target", EVal.s "Romance")]⟩ := by
  with_unfolding_all decide

/-- Claim C5.  The pattern matcher is deterministic and order-respecting:
whenever some pattern of the intent at position `i` matches, the matcher
returns an intent at a position `k ≤ i`, and in particular never the
intent at any later position `j > i`; and whatever `process` returns is
named by the matcher's result. -/
theorem c5_first_match_wins :
    (∀ (t : List Char) (i j : Nat) (hi : i < intentPatterns.length)
        (hj : j < intentPatterns.length), i < j →
      (∃ p ∈ (intentPatterns.get ⟨i, hi⟩).2, (reSearch p t).isSome) →
      ∃ r, findIntentMatch intentPatterns t = some r ∧
        r.1 ≠ (intentPatterns.get ⟨j, hj⟩).1 ∧
        ∃ k, ∃ hk : k < intentPatterns.length, k ≤ i ∧
          r.1 = (intentPatterns.get ⟨k, hk⟩).1) ∧
    (∀ (s : String) (it : Intent) (r : String × Re × SRes),
      process s = some it →
      findIntentMatch intentPatterns (preproc s) = some r → it.name = r.1) := by
  constructor
  · intro t i j hi hj hij hex
    obtain ⟨r, hfind, k, hk, hki, hname⟩ := findIntentMatch_earlier intentPatterns t i hi hex
    refine ⟨r, hfind, ?_, k, hk, hki, hname⟩
    rw [hname]
    intro hcontra
    have hnd : (intentPatterns.map Prod.fst).Nodup := by decide
    have hk2 : k < (intentPatterns.map Prod.fst).length := by
      rw [List.length_map]; exact hk
    have hj2 : j < (intentPatterns.map Prod.fst).length := by
      rw [List.length_map]; exact hj
    have hmapk : (intentPatterns.map Prod.fst).get ⟨k, hk2⟩ =
        (intentPatterns.get ⟨k, hk⟩).1 := by
      simp [List.getElem_map]
    have hmapj : (intentPatterns.map Prod.fst).get ⟨j, hj2⟩ =
        (intentPatterns.get ⟨j, hj⟩).1 := by
      simp [List.getElem_map]
    have heqfin : (⟨k, hk2⟩ : Fin _) = ⟨j, hj2⟩ := by
      apply (List.Nodup.get_inj_iff hnd).mp
      rw [hmapk, hmapj, hcontra]
    have : k = j := by
      simpa using congrArg Fin.val heqfin
    omega
  · intro s it r h hf
    rcases process_some_cases h with ⟨hnone, _⟩ | ⟨r2, es, hf2, _, rfl⟩
    · rw [hnone] at hf
      cases hf
    · rw [hf2] at hf
      obtain rfl := Option.some.inj hf
      rfl

/-- Witness for C5: on `"livros de 2020"` the genre intent (position 0)
has a matching pattern, and the matcher's winner is at position 0 — not
`books_by_year` (position 3), although a `books_by_year` pattern also
matches this text. -/
theorem c5_first_match_wins_witness :
    ∃ r, findIntentMatch intentPatterns "livros de 2020".data = some r ∧
      r.1 ≠ (intentPatterns.get ⟨3, by decide⟩).1 ∧
      ∃ k, ∃ hk : k < intentPatterns.length, k ≤ 0 ∧
        r.1 = (intentPatterns.get ⟨k, hk⟩).1 :=
  c5_first_match_wins.1 "livros de 2020".data 0 3 (by decide) (by decide) (by decide)
    (by decide)

/-- Claim C6.  The confidence scorer always produces a value in
`[0, 0.95]`; when the search fails it returns the fixed fallback `0.3`;
and every confidence `process` produces lies in `[0, 0.95]`, the
`unknown` sentinel carrying exactly `0.0`. -/
theorem c6_confidence_bounds :
    (∀ (t : List Char) (p : Re),
      0 ≤ calcConfidence t p ∧ calcConfidence t p ≤ 95/100) ∧
    (∀ (t : List Char) (p : Re), reSearch p t = none → calcConfidence t p = 3/10) ∧
    (∀ (s : String) (it : Intent), process s = some it →
      0 ≤ it.confidence ∧ it.confidence ≤ 95/100 ∧
        (it.name = "unknown" → it.confidence = 0)) := by
  refine ⟨calcConfidence_bounds, fun _ _ h => calcConfidence_no_match h, ?_⟩
  intro s it h
  rcases process_some_cases h with ⟨_, rfl⟩ | ⟨r, es, hf, _, rfl⟩
  · exact ⟨le_refl 0, by norm_num, fun _ => rfl⟩
  · obtain ⟨h1, h2⟩ := calcConfidence_bounds (preproc s) r.2.1
    refine ⟨h1, h2, ?_⟩
    intro hname
    have hname2 : r.1 = "unknown" := hname
    have hmem := findIntentMatch_name_mem hf
    rw [hname2] at hmem
    have : ("unknown" : String) ∉ intentPatterns.map Prod.fst := by decide
    exact absurd hmem this

/-- Witness for C6 at concrete inputs: the fallback value on a failing
search, and the bounds at that same input. -/
theorem c6_confidence_bounds_witness :
    calcConfidence "zz".data (L "a") = 3/10 ∧
    (0 ≤ calcConfidence "zz".data (L "a") ∧ calcConfidence "zz".data (L "a") ≤ 95/100) ∧
    (0 ≤ (Intent.mk "unknown" 0 []).confidence ∧
      (Intent.mk "unknown" 0 []).confidence ≤ 95/100 ∧
      ((Intent.mk "unknown" 0 []).name = "unknown" →
        (Intent.mk "unknown" 0 []).confidence = 0)) :=
  ⟨c6_confidence_bounds.2.1 "zz".data (L "a") (by decide),
   c6_confidence_bounds.1 "zz".data (L "a"),
   c6_confidence_bounds.2.2 "qqq" (Intent.mk "unknown" 0 [])
     (by with_unfolding_all decide)⟩

/-- Claim C7.  The author normalizer: `"king"` resolves (through the alias
table) to `"stephen king"`; `"xyzabc123"` resolves to `none` (no canonical
name reaches similarity ratio above 0.7); and any resolved name is one of
the canonical author names. -/
theorem c7_author_normalizer :
    findBestAuthorMatch "king" = some "stephen king" ∧
    findBestAuthorMatch "xyzabc123" = none ∧
    ∀ (s r : String), findBestAuthorMatch s = some r →
      r ∈ famousAuthors.map Prod.fst :=
  ⟨by with_unfolding_all decide, by with_unfolding_all decide,
   fun _ _ h => fbam_mem h⟩

/-- Witness for C7: applying the membership conjunct at the concrete
resolution of `"king"`. -/
theorem c7_author_normalizer_witness :
    "stephen king" ∈ famousAuthors.map Prod.fst :=
  c7_author_normalizer.2.2 "king" "stephen king" c7_author_normalizer.1

/-- Claim C8.  When no pattern of any intent matches the (preprocessed)
text, `process` returns the `unknown` intent with confidence exactly 0
and no entities — it does not raise. -/
theorem c8_no_match_unknown :
    ∀ s : String,
      (∀ pr ∈ intentPatterns, ∀ p ∈ pr.2, reSearch p (preproc s) = none) →
      process s = some ⟨"unknown", 0, []⟩ := by
  intro s h
  unfold process
  rw [findIntentMatch_none_of_forall h]

/-- Witness for C8 at the concrete input `"zzz"`, on which no pattern
matches. -/
theorem c8_no_match_unknown_witness :
    process "zzz" = some ⟨"unknown", 0, []⟩ :=
  c8_no_match_unknown "zzz" (by decide)

/-- Claim C9.  Every recommendation operation (genre, author, year,
bestsellers, similar, mood, occasion), given a non-negative limit, returns
a list sorted by rating descending whose length never exceeds the limit. -/
theorem c9_sorted_and_limited :
    ∀ (books : List Book) (genre author title mood occ : String) (year : Int)
      (flag : Bool) (tg tg2 : Option String) (limit : Int), 0 ≤ limit →
      (List.Sorted ratingGe (recommendByGenre books genre limit) ∧
        ((recommendByGenre books genre limit).length : Int) ≤ limit) ∧
      (List.Sorted ratingGe (recommendByAuthor books author limit) ∧
        ((recommendByAuthor books author limit).length : Int) ≤ limit) ∧
      (List.Sorted ratingGe (recommendByYear books year limit) ∧
        ((recommendByYear books year limit).length : Int) ≤ limit) ∧
      (List.Sorted ratingGe (recommendBestsellers books flag limit) ∧
        ((recommendBestsellers books flag limit).length : Int) ≤ limit) ∧
      (List.Sorted ratingGe (recommendSimilarBooks books title limit) ∧
        ((recommendSimilarBooks books title limit).length : Int) ≤ limit) ∧
      (List.Sorted ratingGe (recommendByMood books mood tg limit) ∧
        ((recommendByMood books mood tg limit).length : Int) ≤ limit) ∧
      (List.Sorted ratingGe (recommendByOccasion books occ tg2 limit) ∧
        ((recommendByOccasion books occ tg2 limit).length : Int) ≤ limit) := by
  intro books genre author title mood occ year flag tg tg2 limit hlim
  refine ⟨sliceSort_spec _ _ hlim, sliceSort_spec _ _ hlim, sliceSort_spec _ _ hlim,
    sliceSort_spec _ _ hlim, ?_, sliceSort_spec _ _ hlim, sliceSort_spec _ _ hlim⟩
  rcases hfind : findBookByTitle books title with _ | tgt
  · simp only [recommendSimilarBooks, hfind]
    exact ⟨List.sorted_nil, by simpa using hlim⟩
  · simp only [recommendSimilarBooks, hfind]
    exact sliceSort_spec _ _ hlim

/-- Witness for C9: the genre and similar operations on the concrete
catalog with limit 5. -/
theorem c9_sorted_and_limited_witness :
    (List.Sorted ratingGe (recommendByGenre demoBooks "Terror" 5) ∧
      ((recommendByGenre demoBooks "Terror" 5).length : Int) ≤ 5) ∧
    (List.Sorted ratingGe (recommendSimilarBooks demoBooks "ref book" 5) ∧
      ((recommendSimilarBooks demoBooks "ref book" 5).length : Int) ≤ 5) :=
  ⟨(c9_sorted_and_limited demoBooks "Terror" "a" "t" "m" "o" 2001 true none none 5
      (by decide)).1,
   (c9_sorted_and_limited demoBooks "Terror" "a" "ref book" "m" "o" 2001 true none none 5
      (by decide)).2.2.2.2.1⟩

/-- Claim C10.  The empty fragment is a substring of every title, so on a
non-empty catalog `find_book_by_title("")` returns the first book, and
`recommend_similar_books("")` is computed relative to that first book
rather than taking the not-found branch. -/
theorem c10_empty_title_first_book :
    ∀ (books : List Book) (h : books ≠ []) (limit : Int),
      findBookByTitle books "" = some (books.head h) ∧
      recommendSimilarBooks books "" limit =
        recommendSimilarFrom books (books.head h) limit := by
  intro books h limit
  match books, h with
  | b :: bs, _ =>
    have hfind : findBookByTitle (b :: bs) "" = some b := by
      unfold findBookByTitle
      exact List.find?_cons_of_pos _ (hasSub_nil _)
    refine ⟨hfind, ?_⟩
    unfold recommendSimilarBooks
    rw [hfind]
    rfl

/-- Witness for C10 on the concrete catalog with limit 5. -/
theorem c10_empty_title_first_book_witness :
    findBookByTitle demoBooks "" = some demoRef ∧
    recommendSimilarBooks demoBooks "" 5 = recommendSimilarFrom demoBooks demoRef 5 :=
  c10_empty_title_first_book demoBooks (by decide) 5

end LibraryAssistant
